import Mathlib

/-!
Verification development for the resilient caching / crash-recovery /
parallel-fetch-orchestration core of the `agentic-au-property-researcher`
repository.

The Lean definitions below are a shallow embedding of the Python source:

* `src/research/cache.py`        — `ResearchCache` (durable JSON cache)
* `src/research/checkpoints.py`  — `CheckpointManager`
* `src/research/suburb_discovery.py` — `AccountErrorSignal`
* `src/research/suburb_research.py`  — `parallel_research_suburbs` and its
  worker `_research_one`

Modelling conventions:

* JSON documents are the inductive `Json` type; Python dicts keyed by
  strings become insertion-ordered association lists.
* Wall-clock time (`time.time()`) is passed explicitly as an `Int` argument.
* The SHA-256 based helpers (`hashlib.sha256(...).hexdigest()[:16]` in
  `_make_key`, and the checkpoint digest over the serialized JSON bytes) are
  abstracted as explicit function parameters: every theorem below holds for
  an arbitrary deterministic hash/digest function, which is all the claims
  depend on.
* File-system state (data files, the primary index file and its `.backup`,
  a run's checkpoint directory) is explicit state threaded through the
  operations; thread locks disappear because each operation is modelled as
  one atomic state transition, matching the source's single-mutex design.
-/

/-- JSON values, the payloads stored by the cache and checkpoints. -/
inductive Json where
  | null : Json
  | bool (b : Bool) : Json
  | num (n : Int) : Json
  | str (s : String) : Json
  | arr (elems : List Json) : Json
  | obj (fields : List (String × Json)) : Json
deriving Repr

namespace AList

/-- Insertion-ordered association-list lookup, modelling Python `dict.get`. -/
def getVal? {β : Type} (m : List (String × β)) (k : String) : Option β :=
  match m with
  | [] => none
  | (k₀, v) :: t => if k₀ = k then some v else getVal? t k

/-- Python `d[k] = v`: replace in place if the key is present, else append. -/
def setVal {β : Type} (m : List (String × β)) (k : String) (v : β) :
    List (String × β) :=
  match m with
  | [] => [(k, v)]
  | (k₀, v₀) :: t => if k₀ = k then (k, v) :: t else (k₀, v₀) :: setVal t k v

/-- Python `del d[k]` (callers below only delete keys that are present;
with the no-duplicate-keys invariant removing every occurrence is the same
as removing the single one). -/
def delVal {β : Type} (m : List (String × β)) (k : String) :
    List (String × β) :=
  match m with
  | [] => []
  | (k₀, v) :: t => if k₀ = k then delVal t k else (k₀, v) :: delVal t k

/-- Nat-keyed variant used for the orchestrator's index → result map. -/
def getNat? {β : Type} (m : List (Nat × β)) (k : Nat) : Option β :=
  match m with
  | [] => none
  | (k₀, v) :: t => if k₀ = k then some v else getNat? t k

theorem getVal?_delVal_self {β : Type} (m : List (String × β)) (k : String) :
    getVal? (delVal m k) k = none := by
  induction m with
  | nil => rfl
  | cons p t ih =>
    obtain ⟨k₀, v⟩ := p
    by_cases h : k₀ = k
    · simpa [delVal, h] using ih
    · simpa [delVal, h, getVal?] using ih

theorem getVal?_delVal_other {β : Type} (m : List (String × β)) (k k₁ : String)
    (hne : k₁ ≠ k) : getVal? (delVal m k) k₁ = getVal? m k₁ := by
  induction m with
  | nil => rfl
  | cons p t ih =>
    obtain ⟨k₀, v⟩ := p
    by_cases h : k₀ = k
    · have hk : ¬(k = k₁) := fun hc => hne hc.symm
      simpa [delVal, h, getVal?, hk] using ih
    · by_cases h₁ : k₀ = k₁
      · simp [delVal, h, getVal?, h₁, hne]
      · simpa [delVal, h, getVal?, h₁] using ih

end AList

/-!
## AccountErrorSignal (`src/research/suburb_discovery.py`, lines 23–41)

```python
class AccountErrorSignal:
    def __init__(self):
        self._error = None
        self._lock = threading.Lock()
    def set(self, error):
        with self._lock:
            if self._error is None:
                self._error = error
    @property
    def is_set(self):
        return self._error is not None
    @property
    def error(self):
        return self._error
```

The slot is an `Option α`; the lock makes each call one atomic transition.
-/

namespace AccountErrorSignal

/-- `AccountErrorSignal.set`: write only if the slot is currently empty. -/
def set {α : Type} (slot : Option α) (e : α) : Option α :=
  match slot with
  | none => some e
  | some e₀ => some e₀

/-- `AccountErrorSignal.is_set` property. -/
def isSet {α : Type} (slot : Option α) : Bool :=
  slot.isSome

/-- `AccountErrorSignal.error` property. -/
def errorOf {α : Type} (slot : Option α) : Option α :=
  slot

theorem set_of_some {α : Type} (e₀ e : α) : set (some e₀) e = some e₀ := rfl

end AccountErrorSignal

/-- C8: for every sequence of calls `set(e1), set(e2), ..., set(en)` within one
run, the stored error is `e1` (first writer wins), every later `set` call
leaves the slot unchanged, once set the slot is immutable for the life of the
run, and `error` / `is_set` always observe the first error. -/
theorem accountErrorSignal_first_writer_wins {α : Type} (e₁ : α) (es : List α) :
    (es.foldl AccountErrorSignal.set (AccountErrorSignal.set none e₁) = some e₁)
    ∧ (∀ e, AccountErrorSignal.set (some e₁) e = some e₁)
    ∧ AccountErrorSignal.errorOf
        (es.foldl AccountErrorSignal.set (AccountErrorSignal.set none e₁)) = some e₁
    ∧ AccountErrorSignal.isSet
        (es.foldl AccountErrorSignal.set (AccountErrorSignal.set none e₁)) = true := by
  have hfold : es.foldl AccountErrorSignal.set (AccountErrorSignal.set none e₁)
      = some e₁ := by
    have : AccountErrorSignal.set (none : Option α) e₁ = some e₁ := rfl
    rw [this]
    induction es with
    | nil => rfl
    | cons e t ih => simpa [List.foldl, AccountErrorSignal.set] using ih
  refine ⟨hfold, fun e => rfl, ?_, ?_⟩
  · rw [hfold]; rfl
  · rw [hfold]; rfl

/-!
## Orchestrator (`src/research/suburb_research.py`)

Error types, mirroring the convenience tuples at the top of the file:

```python
API_ACCOUNT_ERRORS = (PerplexityRateLimitError, PerplexityAuthError,
                      AnthropicRateLimitError, AnthropicAuthError)
API_TRANSIENT_ERRORS = (PerplexityAPIError, AnthropicAPIError)
```
-/

/-- Account-fatal provider errors (`API_ACCOUNT_ERRORS`). -/
inductive AccountFatalError where
  | perplexityRateLimit (message : String)
  | perplexityAuth (message : String)
  | anthropicRateLimit (message : String)
  | anthropicAuth (message : String)
deriving Repr, DecidableEq

/-- Transient provider errors (`API_TRANSIENT_ERRORS`). -/
inductive TransientApiError where
  | perplexityAPI (message : String)
  | anthropicAPI (message : String)
deriving Repr, DecidableEq

/--
`SuburbCandidate` (`src/research/suburb_discovery.py`): the fields read by
`_create_fallback_metrics` and `research_suburb`.  `median_price` is a Python
float; it is modelled as a rational (no float arithmetic is performed on it
in the orchestration code).
-/
structure SuburbCandidate where
  name : String
  state : String
  lga : String
  region : String
  median_price : ℚ
  growth_signals : List String
  major_events_relevance : String
  data_quality : String
deriving Repr, DecidableEq

/-- `SuburbIdentification` (`src/models/suburb_metrics.py`). -/
structure SuburbIdentification where
  name : String
  state : String
  lga : String
  region : String
deriving Repr, DecidableEq

/-- `MarketMetricsCurrent`; optional analytics fields that the orchestration
core never touches are elided. -/
structure MarketMetricsCurrent where
  median_price : ℚ
deriving Repr, DecidableEq

/-- `GrowthProjections`; the fields set by `_create_fallback_metrics`. -/
structure GrowthProjections where
  projected_growth_pct : List (Nat × ℚ)
  key_drivers : List String
  growth_score : ℚ
  risk_score : ℚ
  composite_score : ℚ
deriving Repr, DecidableEq

/-- `Infrastructure`; only `major_events_relevance` is set by the fallback. -/
structure Infrastructure where
  major_events_relevance : String
deriving Repr, DecidableEq

/-- `SuburbMetrics` (`src/models/suburb_metrics.py`), restricted to the
components the fan-out/fan-in orchestration constructs or forwards. -/
structure SuburbMetrics where
  identification : SuburbIdentification
  market_current : MarketMetricsCurrent
  growth_projections : GrowthProjections
  infrastructure : Infrastructure
deriving Repr, DecidableEq

/--
`_create_fallback_metrics` (`src/research/suburb_research.py`, lines 331–360):
the locally constructed fallback value substituted when detailed research for
one suburb fails.  The growth-percentage table is the source's literal
`{1: 3.0, 2: 6.0, 3: 9.5, 5: 16.0, 10: 35.0, 25: 95.0}`.
-/
def createFallbackMetrics (candidate : SuburbCandidate) : SuburbMetrics :=
  SuburbMetrics.mk
    (SuburbIdentification.mk candidate.name candidate.state candidate.lga
      candidate.region)
    (MarketMetricsCurrent.mk candidate.median_price)
    (GrowthProjections.mk
      [(1, 3), (2, 6), (3, 19 / 2), (5, 16), (10, 35), (25, 95)]
      candidate.growth_signals 50 50 50)
    (Infrastructure.mk candidate.major_events_relevance)

/--
What the fetch collaborator (`research_suburb`) does for one task: it either
returns a metrics value or raises one of the taxonomy's error classes.
`otherError` is any exception outside both convenience tuples (caught by the
worker's final `except Exception` branch).
-/
inductive FetchSpec where
  | success (m : SuburbMetrics)
  | accountError (e : AccountFatalError)
  | transientError (e : TransientApiError)
  | otherError (message : String)
deriving Repr, DecidableEq

/-- Whether a fetch raises an account-fatal (`API_ACCOUNT_ERRORS`) error. -/
def FetchSpec.isAccountError : FetchSpec → Bool
  | .accountError _ => true
  | _ => false

/--
`_research_one` (`src/research/suburb_research.py`, lines 491–519), one worker:

```python
if account_error.is_set:
    return (index, _create_fallback_metrics(candidate))
try:
    metrics = research_suburb(candidate, ...)
    return (index, metrics)
except API_ACCOUNT_ERRORS as e:
    account_error.set(e); raise
except API_TRANSIENT_ERRORS as e:
    return (index, _create_fallback_metrics(candidate))
except Exception as e:
    return (index, _create_fallback_metrics(candidate))
```

The signal slot is threaded explicitly; a raised account-fatal error becomes
`Except.error`.
-/
def researchOne (signal : Option AccountFatalError) (index : Nat)
    (candidate : SuburbCandidate) (fetch : FetchSpec) :
    Option AccountFatalError × Except AccountFatalError (Nat × SuburbMetrics) :=
  if AccountErrorSignal.isSet signal then
    (signal, Except.ok (index, createFallbackMetrics candidate))
  else
    match fetch with
    | .success m => (signal, Except.ok (index, m))
    | .accountError e => (AccountErrorSignal.set signal e, Except.error e)
    | .transientError _ =>
        (signal, Except.ok (index, createFallbackMetrics candidate))
    | .otherError _ =>
        (signal, Except.ok (index, createFallbackMetrics candidate))

/--
The fan-in loop of `parallel_research_suburbs` (lines 521–545).  The model is
the deterministic single-worker schedule (`max_workers = 1`): futures complete
in submission order, so `as_completed` yields them in input order.  On a
returned pair the result is stored in `results_by_index`; on a raised
account-fatal error the remaining futures are cancelled (none of them has
started under one worker) and the loop breaks, preserving the results
collected so far.
-/
def gatherLoop (signal : Option AccountFatalError) (index : Nat)
    (tasks : List (SuburbCandidate × FetchSpec))
    (acc : List (Nat × SuburbMetrics)) :
    Option AccountFatalError × List (Nat × SuburbMetrics) :=
  match tasks with
  | [] => (signal, acc)
  | (candidate, fetch) :: rest =>
    match researchOne signal index candidate fetch with
    | (signal₁, Except.ok r) => gatherLoop signal₁ (index + 1) rest (acc ++ [r])
    | (signal₁, Except.error _) => (signal₁, acc)

/--
The ordered fan-in step (lines 546–551): `for i in range(total): if i in
results_by_index: ordered_results.append(results_by_index[i])`.
-/
def orderResults (total : Nat) (resultsByIndex : List (Nat × SuburbMetrics)) :
    List SuburbMetrics :=
  (List.range total).filterMap (fun i => AList.getNat? resultsByIndex i)

/-- Global run states of the orchestrator (spec §4.5). -/
inductive RunStatus where
  | completed
  | abortedWithPartialResults
deriving Repr, DecidableEq

/-- Modelled from the spec: the run status of §4.5 step 4 ("`Completed` if
every slot is filled (via success or fallback) and `AbortedWithPartialResults`
otherwise"); `parallel_research_suburbs` itself returns only the list and has
no explicit status value. -/
def runStatusOf (results : List SuburbMetrics) (total : Nat) : RunStatus :=
  if results.length = total then RunStatus.completed
  else RunStatus.abortedWithPartialResults

/--
The fan-out/fan-in state of one `parallel_research_suburbs` run just before
the function returns, under the deterministic single-worker schedule: the
final state of the run's function-local `AccountErrorSignal` and the gathered
`results_by_index` map.  The source prints the signal's error and the
partial-result count from this state, but only the ordered result list is
returned to the caller.
-/
def gatherParallel (tasks : List (SuburbCandidate × FetchSpec)) :
    Option AccountFatalError × List (Nat × SuburbMetrics) :=
  gatherLoop none 0 tasks []

/--
`parallel_research_suburbs` (lines 433–562) under the deterministic
single-worker schedule: submit all tasks, gather with the account-error
signal, then build and return the ordered result list — the function's
return value is only `list[SuburbMetrics]`.
-/
def parallelResearchSuburbs (tasks : List (SuburbCandidate × FetchSpec)) :
    List SuburbMetrics :=
  orderResults tasks.length (gatherParallel tasks).2

/-- The per-task value the run stores for a task that is allowed to finish:
the fetched metrics on success, the locally constructed fallback otherwise. -/
def taskResult : SuburbCandidate × FetchSpec → SuburbMetrics
  | (_, .success m) => m
  | (candidate, _) => createFallbackMetrics candidate

/-- The `results_by_index` contents produced by tasks `i, i+1, ...`. -/
def expectedPairs (index : Nat) :
    List (SuburbCandidate × FetchSpec) → List (Nat × SuburbMetrics)
  | [] => []
  | t :: ts => (index, taskResult t) :: expectedPairs (index + 1) ts

theorem getNat?_expectedPairs_of_lt (ts : List (SuburbCandidate × FetchSpec))
    (index j : Nat) (h : j < index) :
    AList.getNat? (expectedPairs index ts) j = none := by
  induction ts generalizing index with
  | nil => rfl
  | cons t rest ih =>
    have hne : ¬(index = j) := fun hc => Nat.lt_irrefl j (hc ▸ h)
    simp only [expectedPairs, AList.getNat?, hne, if_false]
    exact ih (index + 1) (Nat.lt_succ_of_lt h)

theorem filterMap_congr_mem {α β : Type} (l : List α) (f g : α → Option β)
    (h : ∀ a ∈ l, f a = g a) : l.filterMap f = l.filterMap g := by
  induction l with
  | nil => rfl
  | cons a t ih =>
    have ht : ∀ b ∈ t, f b = g b := fun b hb => h b (List.mem_cons_of_mem a hb)
    simp only [List.filterMap_cons, h a (List.mem_cons_self a t), ih ht]

theorem orderResults_expectedPairs (ts : List (SuburbCandidate × FetchSpec))
    (index extra : Nat) :
    (List.range' index (ts.length + extra)).filterMap
      (fun i => AList.getNat? (expectedPairs index ts) i) = ts.map taskResult := by
  induction ts generalizing index with
  | nil =>
    apply List.filterMap_eq_nil_iff.mpr
    intro j hj
    have hge : index ≤ j := (List.mem_range'_1.mp hj).1
    rfl
  | cons t rest ih =>
    have hlen : (t :: rest).length + extra = (rest.length + extra) + 1 := by
      simp [List.length_cons]; omega
    rw [hlen, List.range'_succ, List.filterMap_cons]
    have hhead : AList.getNat? (expectedPairs index (t :: rest)) index
        = some (taskResult t) := by
      simp [expectedPairs, AList.getNat?]
    rw [hhead]
    have htail : (List.range' (index + 1) (rest.length + extra)).filterMap
        (fun i => AList.getNat? (expectedPairs index (t :: rest)) i)
        = (List.range' (index + 1) (rest.length + extra)).filterMap
          (fun i => AList.getNat? (expectedPairs (index + 1) rest) i) := by
      apply filterMap_congr_mem
      intro j hj
      have hgt : index + 1 ≤ j := (List.mem_range'_1.mp hj).1
      have hne : ¬(index = j) := by omega
      simp [expectedPairs, AList.getNat?, hne]
    rw [htail, ih (index + 1)]
    rfl

theorem gatherLoop_no_account (ts : List (SuburbCandidate × FetchSpec))
    (h : ∀ t ∈ ts, t.2.isAccountError = false) :
    ∀ (index : Nat) (acc : List (Nat × SuburbMetrics)),
      gatherLoop none index ts acc = (none, acc ++ expectedPairs index ts) := by
  induction ts with
  | nil => intro index acc; simp [gatherLoop, expectedPairs]
  | cons t rest ih =>
    intro index acc
    obtain ⟨candidate, fetch⟩ := t
    have hrest : ∀ t ∈ rest, t.2.isAccountError = false :=
      fun t ht => h t (List.mem_cons_of_mem _ ht)
    have hhead : fetch.isAccountError = false := h (candidate, fetch)
      (List.mem_cons_self _ _)
    cases fetch with
    | success m =>
      simp only [gatherLoop, researchOne, AccountErrorSignal.isSet, Option.isSome,
        Bool.false_eq_true, if_false]
      rw [ih hrest (index + 1) (acc ++ [(index, m)])]
      simp [expectedPairs, taskResult]
    | accountError e => simp [FetchSpec.isAccountError] at hhead
    | transientError e =>
      simp only [gatherLoop, researchOne, AccountErrorSignal.isSet, Option.isSome,
        Bool.false_eq_true, if_false]
      rw [ih hrest (index + 1) (acc ++ [(index, createFallbackMetrics candidate)])]
      simp [expectedPairs, taskResult]
    | otherError msg =>
      simp only [gatherLoop, researchOne, AccountErrorSignal.isSet, Option.isSome,
        Bool.false_eq_true, if_false]
      rw [ih hrest (index + 1) (acc ++ [(index, createFallbackMetrics candidate)])]
      simp [expectedPairs, taskResult]

theorem gatherLoop_first_account_error (ts₁ ts₂ : List (SuburbCandidate × FetchSpec))
    (candidate : SuburbCandidate) (e : AccountFatalError)
    (h : ∀ t ∈ ts₁, t.2.isAccountError = false) :
    ∀ (index : Nat) (acc : List (Nat × SuburbMetrics)),
      gatherLoop none index (ts₁ ++ (candidate, FetchSpec.accountError e) :: ts₂) acc
        = (some e, acc ++ expectedPairs index ts₁) := by
  induction ts₁ with
  | nil =>
    intro index acc
    simp [gatherLoop, researchOne, AccountErrorSignal.isSet, AccountErrorSignal.set,
      expectedPairs]
  | cons t rest ih =>
    intro index acc
    obtain ⟨c₀, fetch⟩ := t
    have hrest : ∀ t ∈ rest, t.2.isAccountError = false :=
      fun t ht => h t (List.mem_cons_of_mem _ ht)
    have hhead : fetch.isAccountError = false := h (c₀, fetch)
      (List.mem_cons_self _ _)
    cases fetch with
    | success m =>
      simp only [List.cons_append, gatherLoop, researchOne,
        AccountErrorSignal.isSet, Option.isSome, Bool.false_eq_true, if_false,
        List.append_eq]
      rw [ih hrest (index + 1) (acc ++ [(index, m)])]
      simp [expectedPairs, taskResult]
    | accountError e₀ => simp [FetchSpec.isAccountError] at hhead
    | transientError e₀ =>
      simp only [List.cons_append, gatherLoop, researchOne,
        AccountErrorSignal.isSet, Option.isSome, Bool.false_eq_true, if_false,
        List.append_eq]
      rw [ih hrest (index + 1) (acc ++ [(index, createFallbackMetrics c₀)])]
      simp [expectedPairs, taskResult]
    | otherError msg =>
      simp only [List.cons_append, gatherLoop, researchOne,
        AccountErrorSignal.isSet, Option.isSome, Bool.false_eq_true, if_false,
        List.append_eq]
      rw [ih hrest (index + 1) (acc ++ [(index, createFallbackMetrics c₀)])]
      simp [expectedPairs, taskResult]

/-- Concrete sample candidate used by closed witness statements. -/
def sampleCandidate (n : Nat) : SuburbCandidate :=
  SuburbCandidate.mk (s!"Suburb{n}") "QLD" (s!"LGA{n}") "SEQ" 650000
    ["infrastructure pipeline"] "2032 Olympics" "medium"

/-- Concrete sample fetched-metrics value used by closed witness statements. -/
def sampleMetrics (n : Nat) : SuburbMetrics :=
  SuburbMetrics.mk
    (SuburbIdentification.mk (s!"Suburb{n}") "QLD" (s!"LGA{n}") "SEQ")
    (MarketMetricsCurrent.mk 700000)
    (GrowthProjections.mk [(1, 4)] ["rail link"] 60 40 55)
    (Infrastructure.mk "2032 Olympics")

/-- C1 counterexample: the triggering account-fatal error is *not* surfaced
to the caller as a field of `parallel_research_suburbs`'s return value — the
function returns only the ordered partial-result list.  Two runs whose fatal
tasks raise two *different* account-fatal errors (a rate-limit and an
authentication error) return exactly the same value, so no field of the
return value can carry the triggering error. -/
theorem orchestrator_fatal_error_not_returned_counterexample :
    parallelResearchSuburbs
      [(sampleCandidate 1, FetchSpec.success (sampleMetrics 1)),
       (sampleCandidate 2, FetchSpec.accountError
          (AccountFatalError.perplexityRateLimit "credits exhausted"))]
      = parallelResearchSuburbs
        [(sampleCandidate 1, FetchSpec.success (sampleMetrics 1)),
         (sampleCandidate 2, FetchSpec.accountError
            (AccountFatalError.anthropicAuth "key revoked"))]
    ∧ parallelResearchSuburbs
        [(sampleCandidate 1, FetchSpec.success (sampleMetrics 1)),
         (sampleCandidate 2, FetchSpec.accountError
            (AccountFatalError.perplexityRateLimit "credits exhausted"))]
      = [sampleMetrics 1] := ⟨rfl, rfl⟩

/-- C1 (amended): for every task list in which some task's fetch raises an
account-fatal error (rate-limit or authentication), the orchestrator run
stops dispatching new work and returns the ordered partial results collected
from the tasks that finished before the signal was set (discarding none of
them); the triggering error is retained in the run's first-writer-wins
`AccountErrorSignal` (whose final state the function reports before
returning), but it is not part of the return value — the caller receives
only the partial-result list.  The task list is written `ts₁ ++ fatal :: ts₂`
with `ts₁` free of account-fatal fetches, so `fatal` is the first task whose
fetch raises account-fatally under the deterministic single-worker
schedule. -/
theorem orchestrator_account_fatal_partial_results
    (ts₁ ts₂ : List (SuburbCandidate × FetchSpec)) (candidate : SuburbCandidate)
    (e : AccountFatalError) (h : ∀ t ∈ ts₁, t.2.isAccountError = false) :
    parallelResearchSuburbs (ts₁ ++ (candidate, FetchSpec.accountError e) :: ts₂)
      = ts₁.map taskResult
    ∧ (gatherParallel
        (ts₁ ++ (candidate, FetchSpec.accountError e) :: ts₂)).1 = some e := by
  have hg : gatherParallel (ts₁ ++ (candidate, FetchSpec.accountError e) :: ts₂)
      = (some e, expectedPairs 0 ts₁) := by
    unfold gatherParallel
    simpa using gatherLoop_first_account_error ts₁ ts₂ candidate e h 0 []
  constructor
  · unfold parallelResearchSuburbs
    rw [hg]
    have hlen : (ts₁ ++ (candidate, FetchSpec.accountError e) :: ts₂).length
        = ts₁.length + (ts₂.length + 1) := by
      simp [List.length_append]
    unfold orderResults
    rw [hlen, List.range_eq_range',
      orderResults_expectedPairs ts₁ 0 (ts₂.length + 1)]
  · rw [hg]

/-- Witness for C1, the spec's fan-out example: five tasks where task 3
raises a rate-limit error; the run returns the two results gathered before
the signal fired (task 2's being its fallback) and the signal holds the
rate-limit error. -/
theorem orchestrator_account_fatal_partial_results_witness :
    parallelResearchSuburbs
      [(sampleCandidate 1, FetchSpec.success (sampleMetrics 1)),
       (sampleCandidate 2, FetchSpec.transientError
          (TransientApiError.perplexityAPI "timeout")),
       (sampleCandidate 3, FetchSpec.accountError
          (AccountFatalError.perplexityRateLimit "credits exhausted")),
       (sampleCandidate 4, FetchSpec.success (sampleMetrics 4)),
       (sampleCandidate 5, FetchSpec.success (sampleMetrics 5))]
      = [sampleMetrics 1, createFallbackMetrics (sampleCandidate 2)]
    ∧ (gatherParallel
        [(sampleCandidate 1, FetchSpec.success (sampleMetrics 1)),
         (sampleCandidate 2, FetchSpec.transientError
            (TransientApiError.perplexityAPI "timeout")),
         (sampleCandidate 3, FetchSpec.accountError
            (AccountFatalError.perplexityRateLimit "credits exhausted")),
         (sampleCandidate 4, FetchSpec.success (sampleMetrics 4)),
         (sampleCandidate 5, FetchSpec.success (sampleMetrics 5))]).1
      = some (AccountFatalError.perplexityRateLimit "credits exhausted") := by
  have h := orchestrator_account_fatal_partial_results
    [(sampleCandidate 1, FetchSpec.success (sampleMetrics 1)),
     (sampleCandidate 2, FetchSpec.transientError
        (TransientApiError.perplexityAPI "timeout"))]
    [(sampleCandidate 4, FetchSpec.success (sampleMetrics 4)),
     (sampleCandidate 5, FetchSpec.success (sampleMetrics 5))]
    (sampleCandidate 3) (AccountFatalError.perplexityRateLimit "credits exhausted")
    (by intro t ht
        simp only [List.mem_cons, List.not_mem_nil, or_false] at ht
        rcases ht with h₁ | h₁ <;> subst h₁ <;> rfl)
  exact ⟨by simpa [taskResult] using h.1, h.2⟩

/-- C2: for every task list whose fetches raise only transient errors (or
succeed, never account-fatally), the orchestrator run returns exactly one
result per task — each failing task's slot filled with the locally
constructed fallback value and never left empty — the transient errors do not
propagate to the caller (the run returns normally with `fatalError = none`),
and the run status is `Completed`. -/
theorem orchestrator_transient_fallback_completed
    (ts : List (SuburbCandidate × FetchSpec))
    (h : ∀ t ∈ ts, t.2.isAccountError = false) :
    parallelResearchSuburbs ts = ts.map taskResult
    ∧ (gatherParallel ts).1 = none
    ∧ (parallelResearchSuburbs ts).length = ts.length
    ∧ runStatusOf (parallelResearchSuburbs ts) ts.length
      = RunStatus.completed := by
  have hg : gatherParallel ts = (none, expectedPairs 0 ts) := by
    unfold gatherParallel
    simpa using gatherLoop_no_account ts h 0 []
  have hrun : parallelResearchSuburbs ts = ts.map taskResult := by
    unfold parallelResearchSuburbs
    rw [hg]
    unfold orderResults
    rw [List.range_eq_range']
    exact orderResults_expectedPairs ts 0 0
  refine ⟨hrun, by rw [hg], ?_, ?_⟩
  · rw [hrun]; simp
  · rw [hrun]; simp [runStatusOf]

/-- Witness for C2, the spec's transient-continuation example: three tasks
where task 2 raises a transient API error; the run returns exactly three
results, task 2's being the fallback, with no fatal error and status
`Completed`. -/
theorem orchestrator_transient_fallback_completed_witness :
    parallelResearchSuburbs
      [(sampleCandidate 1, FetchSpec.success (sampleMetrics 1)),
       (sampleCandidate 2, FetchSpec.transientError
          (TransientApiError.anthropicAPI "request timed out")),
       (sampleCandidate 3, FetchSpec.success (sampleMetrics 3))]
      = [sampleMetrics 1, createFallbackMetrics (sampleCandidate 2),
         sampleMetrics 3]
    ∧ runStatusOf (parallelResearchSuburbs
        [(sampleCandidate 1, FetchSpec.success (sampleMetrics 1)),
         (sampleCandidate 2, FetchSpec.transientError
            (TransientApiError.anthropicAPI "request timed out")),
         (sampleCandidate 3, FetchSpec.success (sampleMetrics 3))]) 3
        = RunStatus.completed := by
  have h := orchestrator_transient_fallback_completed
    [(sampleCandidate 1, FetchSpec.success (sampleMetrics 1)),
     (sampleCandidate 2, FetchSpec.transientError
        (TransientApiError.anthropicAPI "request timed out")),
     (sampleCandidate 3, FetchSpec.success (sampleMetrics 3))]
    (by intro t ht
        simp only [List.mem_cons, List.not_mem_nil, or_false] at ht
        rcases ht with h₁ | h₁ | h₁ <;> subst h₁ <;> rfl)
  refine ⟨?_, ?_⟩
  · simpa [taskResult] using h.1
  · exact h.2.2.2

/-- C9 counterexample: a worker that begins after the `AccountErrorSignal`
has been set returns its result slot populated with the locally constructed
fallback value — not an empty/`Skipped` slot — even though its fetch would
have succeeded with a different value.  This refutes the claim's "does not
populate its result slot with a fallback value". -/
theorem researchOne_skipped_claim_counterexample :
    (researchOne (some (AccountFatalError.perplexityRateLimit "credits"))
        0 (sampleCandidate 1) (FetchSpec.success (sampleMetrics 1))).2
      = Except.ok (0, createFallbackMetrics (sampleCandidate 1))
    ∧ createFallbackMetrics (sampleCandidate 1) ≠ sampleMetrics 1 := by
  refine ⟨rfl, ?_⟩
  intro hcontra
  have : (createFallbackMetrics (sampleCandidate 1)).market_current.median_price
      = 700000 := by rw [hcontra]; rfl
  simp [createFallbackMetrics, sampleCandidate] at this

/-- C9 (amended): for every worker whose task begins after the
`AccountErrorSignal` has been set, the worker short-circuits without invoking
the fetch collaborator — its outcome is the same for every fetch behaviour,
so no new provider call is observable — but it returns its result slot
populated with the locally constructed fallback value (the source's
`return (index, _create_fallback_metrics(candidate))`), rather than leaving
the slot empty. -/
theorem researchOne_short_circuit_returns_fallback
    (e : AccountFatalError) (index : Nat) (candidate : SuburbCandidate)
    (fetch : FetchSpec) :
    researchOne (some e) index candidate fetch
      = (some e, Except.ok (index, createFallbackMetrics candidate)) := rfl

/-!
## ResearchCache (`src/research/cache.py`)

State: the cache directory's data files (`{type}_{hash}.json` → parsed JSON
payload), and the primary index file `cache_index.json` plus its `.backup`.
An index file on disk either parses to an entry map (`ok`), fails to parse
(`corrupt`), or does not exist (`missing`).

The SHA-256 truncation of `_make_key` is the explicit `hashFn` parameter;
`time.time()` is the explicit `now` parameter; the byte budget
`settings.CACHE_MAX_SIZE_MB * 1024 * 1024` read by `_enforce_size_limit` is
the explicit `maxSizeBytes` parameter.
-/

/-- `CacheConfig` (defaults in the source: `discovery_ttl = 86400`,
`research_ttl = 604800`, `enabled = True`). -/
structure CacheConfig where
  discovery_ttl : Int
  research_ttl : Int
  enabled : Bool
deriving Repr, DecidableEq

/-- `CacheEntry` metadata, field for field.  Key-part values reach
`_make_key` already stringified (`f"{k}={v}"`), so they are strings here. -/
structure CacheEntry where
  key_hash : String
  filepath : String
  created_at : Int
  ttl_seconds : Int
  cache_type : String
  key_parts : List (String × String)
  size_bytes : Int
  last_accessed : Int
deriving Repr, DecidableEq

/-- Parse outcome of an on-disk index file. -/
inductive IndexFile where
  | missing
  | corrupt
  | ok (entries : List (String × CacheEntry))
deriving Repr, DecidableEq

/-- The cache directory's observable state. -/
structure CacheState where
  files : List (String × Json)
  primaryIndex : IndexFile
  backupIndex : IndexFile
deriving Repr

/-- `ResearchCache.INDEX_FILE`. -/
def INDEX_FILE : String := "cache_index.json"

/-- Lexicographic order on `(key, value)` pairs, as used by Python's
`sorted(parts.items())`. -/
def keyPartLE (a b : String × String) : Prop :=
  a.1 < b.1 ∨ (a.1 = b.1 ∧ a.2 ≤ b.2)

instance : DecidableRel keyPartLE := fun _ _ =>
  inferInstanceAs (Decidable (_ ∨ _))

/--
`ResearchCache._make_key` (lines 296–304):

```python
sorted_parts = sorted(parts.items())
key_string = f"{cache_type}:" + "|".join(f"{k}={v}" for k, v in sorted_parts)
return hashlib.sha256(key_string.encode()).hexdigest()[:16]
```

`hashFn` stands for `sha256(...).hexdigest()[:16]`.
-/
def makeKey (hashFn : String → String) (cache_type : String)
    (parts : List (String × String)) : String :=
  hashFn (cache_type ++ ":" ++ String.intercalate "|"
    ((List.insertionSort keyPartLE parts).map (fun p => p.1 ++ "=" ++ p.2)))

mutual
/-- Model of the serialized byte size of a JSON document
(`data_path.stat().st_size` after `atomic_write_json`): a deterministic,
structure-respecting size function. -/
def Json.byteSize : Json → Nat
  | .null => 4
  | .bool b => if b then 4 else 5
  | .num n => (toString n).length
  | .str s => s.utf8ByteSize + 2
  | .arr elems => 2 + Json.sizeArr elems
  | .obj fields => 2 + Json.sizeObj fields
def Json.sizeArr : List Json → Nat
  | [] => 0
  | j :: t => Json.byteSize j + 2 + Json.sizeArr t
def Json.sizeObj : List (String × Json) → Nat
  | [] => 0
  | f :: t => f.1.utf8ByteSize + 4 + Json.byteSize f.2 + Json.sizeObj t
end

/--
`ResearchCache._load_index` (lines 140–177): try the primary index; on parse
failure (or a missing file) fall back to `.backup`; on backup success copy
the backup over the primary (`shutil.copy2`) and return its entries; if both
fail start from an empty index.
-/
def loadIndex (s : CacheState) : CacheState × List (String × CacheEntry) :=
  match s.primaryIndex with
  | IndexFile.ok entries => (s, entries)
  | _ =>
    match s.backupIndex with
    | IndexFile.ok entries =>
        (CacheState.mk s.files (IndexFile.ok entries) s.backupIndex, entries)
    | _ => (s, [])

/-- `ResearchCache._save_index` (lines 179–193): atomic write of the primary
index, then copy it to `.backup`. -/
def saveIndex (index : List (String × CacheEntry)) (s : CacheState) :
    CacheState :=
  CacheState.mk s.files (IndexFile.ok index) (IndexFile.ok index)

/-- `ResearchCache._is_expired` (lines 311–313):
`(time.time() - entry.created_at) > entry.ttl_seconds`. -/
def isExpired (now : Int) (entry : CacheEntry) : Prop :=
  now - entry.created_at > entry.ttl_seconds

instance (now : Int) (entry : CacheEntry) : Decidable (isExpired now entry) :=
  inferInstanceAs (Decidable (_ < _))

/-- `ResearchCache._get_ttl` (lines 315–319). -/
def getTtl (cfg : CacheConfig) (cache_type : String) : Int :=
  if cache_type = "discovery" then cfg.discovery_ttl else cfg.research_ttl

/-- `ResearchCache._remove_entry` (lines 516–523): delete the data file if it
exists, delete the index entry, save the index. -/
def removeEntry (key_hash : String) (entry : CacheEntry)
    (index : List (String × CacheEntry)) (s : CacheState) : CacheState :=
  saveIndex (AList.delVal index key_hash)
    (CacheState.mk (AList.delVal s.files entry.filepath)
      s.primaryIndex s.backupIndex)

/-- Total `size_bytes` of all index entries
(`sum(entry.size_bytes for entry in index.values())`). -/
def sumSizes (index : List (String × CacheEntry)) : Int :=
  (index.map (fun p => p.2.size_bytes)).sum

/-- Sort key of the LRU eviction pass:
`sorted(index.items(), key=lambda item: item[1].last_accessed)`. -/
def lruLE (a b : String × CacheEntry) : Prop :=
  a.2.last_accessed ≤ b.2.last_accessed

instance : DecidableRel lruLE := fun _ _ =>
  inferInstanceAs (Decidable (_ ≤ _))

/-- The eviction loop body of `_enforce_size_limit` (lines 264–291): walk the
LRU-ascending entries, delete each one's data file and index entry and
subtract its size, stopping as soon as the running total plus the incoming
size fits. -/
def evictLoop (maxSizeBytes newEntrySize : Int) :
    List (String × CacheEntry) → List (String × Json) →
    List (String × CacheEntry) → Int →
    List (String × Json) × List (String × CacheEntry)
  | [], files, index, _ => (files, index)
  | (key_hash, entry) :: rest, files, index, total =>
    let files₁ := AList.delVal files entry.filepath
    let index₁ := AList.delVal index key_hash
    let total₁ := total - entry.size_bytes
    if total₁ + newEntrySize ≤ maxSizeBytes then (files₁, index₁)
    else evictLoop maxSizeBytes newEntrySize rest files₁ index₁ total₁

/--
`ResearchCache._enforce_size_limit` (lines 239–294).  `maxSizeBytes` is the
source's `settings.CACHE_MAX_SIZE_MB * 1024 * 1024`; a budget ≤ 0 disables
enforcement; if the current total plus the incoming size fits, nothing
happens; otherwise the LRU eviction pass runs and the updated index is saved
once.
-/
def enforceSizeLimit (maxSizeBytes newEntrySize : Int) (s : CacheState) :
    CacheState :=
  if maxSizeBytes ≤ 0 then s
  else
    let p := loadIndex s
    let s₁ := p.1
    let index := p.2
    let total := sumSizes index
    if total + newEntrySize ≤ maxSizeBytes then s₁
    else
      let sorted := List.insertionSort lruLE index
      let q := evictLoop maxSizeBytes newEntrySize sorted s₁.files index total
      saveIndex q.2 (CacheState.mk q.1 s₁.primaryIndex s₁.backupIndex)

/--
`ResearchCache.get` (lines 321–369): compute the key hash, load the index;
miss → `None`; TTL-expired entry → remove it (write-through) and return
`None`; data file missing → repair the index and return `None`; otherwise
update `last_accessed`, save the index, and return the deserialized payload.
-/
def cacheGet (hashFn : String → String) (cfg : CacheConfig) (now : Int)
    (cache_type : String) (key_parts : List (String × String))
    (s : CacheState) : CacheState × Option Json :=
  if cfg.enabled = false then (s, none)
  else
    let key_hash := makeKey hashFn cache_type key_parts
    let p := loadIndex s
    let s₁ := p.1
    let index := p.2
    match AList.getVal? index key_hash with
    | none => (s₁, none)
    | some entry =>
      if isExpired now entry then
        (removeEntry key_hash entry index s₁, none)
      else
        match AList.getVal? s₁.files entry.filepath with
        | none =>
          (saveIndex (AList.delVal index key_hash) s₁, none)
        | some data =>
          let entry₁ := CacheEntry.mk entry.key_hash entry.filepath
            entry.created_at entry.ttl_seconds entry.cache_type
            entry.key_parts entry.size_bytes now
          (saveIndex (AList.setVal index key_hash entry₁) s₁, some data)

/--
`ResearchCache.put` (lines 371–411): write the data file atomically, measure
its size, run `_enforce_size_limit(file_size)` **before** adding the new
entry, then reload the index, add the entry and save.
-/
def cachePut (hashFn : String → String) (cfg : CacheConfig)
    (maxSizeBytes now : Int) (cache_type : String) (data : Json)
    (key_parts : List (String × String)) (s : CacheState) : CacheState :=
  if cfg.enabled = false then s
  else
    let key_hash := makeKey hashFn cache_type key_parts
    let filename := cache_type ++ "_" ++ key_hash ++ ".json"
    let s₁ := CacheState.mk (AList.setVal s.files filename data)
      s.primaryIndex s.backupIndex
    let file_size : Int := (Json.byteSize data : Int)
    let s₂ := enforceSizeLimit maxSizeBytes file_size s₁
    let entry := CacheEntry.mk key_hash filename now (getTtl cfg cache_type)
      cache_type key_parts file_size now
    let p := loadIndex s₂
    saveIndex (AList.setVal p.2 key_hash entry) p.1

/-- `str.startswith`, computed on the underlying character lists (kernel
reducible, unlike `String.startsWith`). -/
def strStartsWith (s pre : String) : Bool :=
  pre.data.isPrefixOf s.data

/-- `str.endswith`, computed on the underlying character lists. -/
def strEndsWith (s suf : String) : Bool :=
  suf.data.isSuffixOf s.data

/-- Glob patterns `discovery_*.json` / `research_*.json` of the orphan scan. -/
def isDataFileName (name : String) : Bool :=
  (strStartsWith name "discovery_" || strStartsWith name "research_")
    && strEndsWith name ".json"

/--
`ResearchCache._cleanup_orphans` (lines 195–237): load the index, delete every
file matching the data-file patterns that is neither protected nor referenced
by an index entry, then delete stray `.tmp_*` files from interrupted writes.
-/
def cleanupOrphans (s : CacheState) : CacheState :=
  let p := loadIndex s
  let s₁ := p.1
  let indexedFiles := p.2.map (fun q => q.2.filepath)
  let protectedFiles := [INDEX_FILE, INDEX_FILE ++ ".backup"]
  let files₁ := s₁.files.filter (fun q =>
    !(isDataFileName q.1) || decide (q.1 ∈ protectedFiles)
      || decide (q.1 ∈ indexedFiles))
  let files₂ := files₁.filter (fun q => !(strStartsWith q.1 ".tmp_"))
  CacheState.mk files₂ s₁.primaryIndex s₁.backupIndex

/-- `ResearchCache.__init__` (lines 126–131): ensure the directory exists and
run the orphan cleanup (which loads — and, via backup recovery, possibly
repairs — the index). -/
def constructCache (s : CacheState) : CacheState :=
  cleanupOrphans s

/-- C10: when the cache is constructed with `enabled = false`, `get` returns
absent for every cache type and key-part map with the state untouched, and
`put` is a complete no-op: it writes no data file, triggers no eviction, and
leaves the on-disk index and cache directory unchanged. -/
theorem cache_disabled_noop (hashFn : String → String) (cfg : CacheConfig)
    (maxSizeBytes now : Int) (cache_type : String) (data : Json)
    (key_parts : List (String × String)) (s : CacheState)
    (h : cfg.enabled = false) :
    cacheGet hashFn cfg now cache_type key_parts s = (s, none)
    ∧ cachePut hashFn cfg maxSizeBytes now cache_type data key_parts s = s := by
  constructor
  · simp [cacheGet, h]
  · simp [cachePut, h]

/-- Witness for C10 at a concrete disabled configuration and populated state. -/
theorem cache_disabled_noop_witness :
    cacheGet (fun s => s) (CacheConfig.mk 86400 604800 false) 5 "research"
        [("suburb_name", "Ipswich")]
        (CacheState.mk [("research_k.json", Json.num 7)]
          (IndexFile.ok []) IndexFile.missing)
      = ((CacheState.mk [("research_k.json", Json.num 7)]
          (IndexFile.ok []) IndexFile.missing), none)
    ∧ cachePut (fun s => s) (CacheConfig.mk 86400 604800 false) 1000 5
        "research" (Json.str "payload") [("suburb_name", "Ipswich")]
        (CacheState.mk [("research_k.json", Json.num 7)]
          (IndexFile.ok []) IndexFile.missing)
      = CacheState.mk [("research_k.json", Json.num 7)]
          (IndexFile.ok []) IndexFile.missing :=
  cache_disabled_noop (fun s => s) (CacheConfig.mk 86400 604800 false) 1000 5
    "research" (Json.str "payload") [("suburb_name", "Ipswich")]
    (CacheState.mk [("research_k.json", Json.num 7)]
      (IndexFile.ok []) IndexFile.missing) rfl

/-- C7: for every cache entry whose age (`now - created_at`) exceeds its
`ttl_seconds`, `get` on that entry's key returns absent and removes the
expired entry from the index (together with its data file) with a
write-through index save — the primary index and its backup both record the
removal — so the entry is gone for all subsequent operations: any later `get`
on the same key returns absent without further state change. -/
theorem cache_get_expired_removes_entry (hashFn : String → String)
    (cfg : CacheConfig) (now : Int) (cache_type : String)
    (key_parts : List (String × String)) (files : List (String × Json))
    (backup : IndexFile) (index : List (String × CacheEntry))
    (entry : CacheEntry)
    (henabled : cfg.enabled = true)
    (hentry : AList.getVal? index (makeKey hashFn cache_type key_parts)
      = some entry)
    (hexp : now - entry.created_at > entry.ttl_seconds) :
    (cacheGet hashFn cfg now cache_type key_parts
        (CacheState.mk files (IndexFile.ok index) backup)).2 = none
    ∧ (cacheGet hashFn cfg now cache_type key_parts
        (CacheState.mk files (IndexFile.ok index) backup)).1
      = CacheState.mk (AList.delVal files entry.filepath)
          (IndexFile.ok (AList.delVal index (makeKey hashFn cache_type key_parts)))
          (IndexFile.ok (AList.delVal index (makeKey hashFn cache_type key_parts)))
    ∧ AList.getVal? (AList.delVal index (makeKey hashFn cache_type key_parts))
        (makeKey hashFn cache_type key_parts) = none
    ∧ (∀ t : Int, cacheGet hashFn cfg t cache_type key_parts
        ((cacheGet hashFn cfg now cache_type key_parts
          (CacheState.mk files (IndexFile.ok index) backup)).1)
      = ((cacheGet hashFn cfg now cache_type key_parts
          (CacheState.mk files (IndexFile.ok index) backup)).1, none)) := by
  have hrun : cacheGet hashFn cfg now cache_type key_parts
      (CacheState.mk files (IndexFile.ok index) backup)
      = (CacheState.mk (AList.delVal files entry.filepath)
          (IndexFile.ok (AList.delVal index (makeKey hashFn cache_type key_parts)))
          (IndexFile.ok (AList.delVal index (makeKey hashFn cache_type key_parts))),
        none) := by
    have hexp₁ : isExpired now entry := hexp
    simp [cacheGet, henabled, loadIndex, hentry, hexp₁, removeEntry, saveIndex]
  refine ⟨by rw [hrun], by rw [hrun], AList.getVal?_delVal_self index _, ?_⟩
  intro t
  rw [hrun]
  simp [cacheGet, henabled, loadIndex, AList.getVal?_delVal_self index _]

/-- Witness for C7: an entry written at time 0 with a one-second TTL is
absent and removed when read at time 2. -/
theorem cache_get_expired_removes_entry_witness :
    (cacheGet (fun s => s) (CacheConfig.mk 86400 604800 true) 2 "research"
        [("name", "test")]
        (CacheState.mk [("research_research:name=test.json", Json.num 1)]
          (IndexFile.ok [("research:name=test",
            CacheEntry.mk "research:name=test"
              "research_research:name=test.json" 0 1 "research"
              [("name", "test")] 13 0)])
          IndexFile.missing)).2 = none
    ∧ AList.getVal?
        (AList.delVal
          [("research:name=test",
            CacheEntry.mk "research:name=test"
              "research_research:name=test.json" 0 1 "research"
              [("name", "test")] 13 0)]
          (makeKey (fun s => s) "research" [("name", "test")]))
        (makeKey (fun s => s) "research" [("name", "test")]) = none := by
  have h := cache_get_expired_removes_entry (fun s => s)
    (CacheConfig.mk 86400 604800 true) 2 "research" [("name", "test")]
    [("research_research:name=test.json", Json.num 1)] IndexFile.missing
    [("research:name=test",
      CacheEntry.mk "research:name=test" "research_research:name=test.json"
        0 1 "research" [("name", "test")] 13 0)]
    (CacheEntry.mk "research:name=test" "research_research:name=test.json"
      0 1 "research" [("name", "test")] 13 0)
    rfl (by rfl) (by decide)
  exact ⟨h.1, h.2.2.1⟩

theorem getVal?_filter_of_keep {β : Type} (m : List (String × β))
    (keep : String × β → Bool) (name : String)
    (h : ∀ v : β, keep (name, v) = true) :
    AList.getVal? (m.filter keep) name = AList.getVal? m name := by
  induction m with
  | nil => rfl
  | cons p t ih =>
    obtain ⟨k₀, v⟩ := p
    by_cases hk : k₀ = name
    · subst hk
      rw [List.filter_cons, h v]
      simp [AList.getVal?]
    · rw [List.filter_cons]
      cases hkeep : keep (k₀, v) with
      | true => simpa [AList.getVal?, hk] using ih
      | false => simpa [AList.getVal?, hk] using ih

/-- C6: if the primary index file `cache_index.json` fails to parse,
constructing a new cache instance (whose initialisation loads the index via
the orphan scan) falls back to the `.backup` index, promotes the backup back
to primary, and loses no entry recorded in the backup — every backup entry is
in the loaded index and its data file is untouched; if both the primary and
the backup fail to parse, the cache starts from an empty index without
crashing. -/
theorem cache_index_corruption_recovery (s : CacheState)
    (b : List (String × CacheEntry))
    (hcorrupt : s.primaryIndex = IndexFile.corrupt)
    (htmp : ∀ p ∈ b, strStartsWith p.2.filepath ".tmp_" = false) :
    (s.backupIndex = IndexFile.ok b →
      (constructCache s).primaryIndex = IndexFile.ok b
      ∧ (constructCache s).backupIndex = IndexFile.ok b
      ∧ (loadIndex (constructCache s)).2 = b
      ∧ ∀ p ∈ b, AList.getVal? (constructCache s).files p.2.filepath
          = AList.getVal? s.files p.2.filepath)
    ∧ (s.backupIndex = IndexFile.corrupt →
      (loadIndex (constructCache s)).2 = []) := by
  obtain ⟨files, primary, backup⟩ := s
  simp only at hcorrupt
  subst hcorrupt
  constructor
  · intro hb
    simp only at hb
    subst hb
    have hload : loadIndex (CacheState.mk files IndexFile.corrupt
        (IndexFile.ok b))
        = (CacheState.mk files (IndexFile.ok b) (IndexFile.ok b), b) := rfl
    refine ⟨rfl, rfl, rfl, ?_⟩
    intro p hp
    show AList.getVal?
      ((files.filter (fun q =>
        !(isDataFileName q.1) || decide (q.1 ∈ [INDEX_FILE, INDEX_FILE ++ ".backup"])
          || decide (q.1 ∈ b.map (fun q => q.2.filepath)))).filter
        (fun q => !(strStartsWith q.1 ".tmp_"))) p.2.filepath
      = AList.getVal? files p.2.filepath
    rw [getVal?_filter_of_keep, getVal?_filter_of_keep]
    · intro v
      have hmem : p.2.filepath ∈ b.map (fun q => q.2.filepath) :=
        List.mem_map.mpr ⟨p, hp, rfl⟩
      simp [hmem]
    · intro v
      simp [htmp p hp]
  · intro hb
    simp only at hb
    subst hb
    rfl

/-- Witness for C6: a concrete state whose primary index is corrupt; with an
intact backup holding one entry the construction promotes it and keeps the
entry's data file; with a corrupt backup the loaded index is empty. -/
theorem cache_index_corruption_recovery_witness :
    ((constructCache (CacheState.mk
        [("research_abc.json", Json.num 3)] IndexFile.corrupt
        (IndexFile.ok [("abc",
          CacheEntry.mk "abc" "research_abc.json" 0 604800 "research"
            [] 11 0)]))).primaryIndex
      = IndexFile.ok [("abc",
          CacheEntry.mk "abc" "research_abc.json" 0 604800 "research"
            [] 11 0)]
      ∧ AList.getVal? (constructCache (CacheState.mk
          [("research_abc.json", Json.num 3)] IndexFile.corrupt
          (IndexFile.ok [("abc",
            CacheEntry.mk "abc" "research_abc.json" 0 604800 "research"
              [] 11 0)]))).files "research_abc.json"
        = AList.getVal? [("research_abc.json", Json.num 3)] "research_abc.json")
    ∧ (loadIndex (constructCache (CacheState.mk
        [("research_abc.json", Json.num 3)] IndexFile.corrupt
        IndexFile.corrupt))).2 = [] := by
  have h₁ := cache_index_corruption_recovery
    (CacheState.mk [("research_abc.json", Json.num 3)] IndexFile.corrupt
      (IndexFile.ok [("abc",
        CacheEntry.mk "abc" "research_abc.json" 0 604800 "research" [] 11 0)]))
    [("abc", CacheEntry.mk "abc" "research_abc.json" 0 604800 "research" [] 11 0)]
    rfl (by decide)
  have h₂ := cache_index_corruption_recovery
    (CacheState.mk [("research_abc.json", Json.num 3)] IndexFile.corrupt
      IndexFile.corrupt)
    [] rfl (by decide)
  refine ⟨⟨(h₁.1 rfl).1, ?_⟩, h₂.2 rfl⟩
  exact (h₁.1 rfl).2.2.2
    ("abc", CacheEntry.mk "abc" "research_abc.json" 0 604800 "research" [] 11 0)
    (by decide)

/-- Concrete configuration used by the put/get round-trip evaluation. -/
def roundTripCfg : CacheConfig := CacheConfig.mk 86400 604800 true

/-- Concrete pre-state for the round-trip evaluation: one existing entry for
the *same* key (size 1000 bytes, so that the 1000-byte budget forces the
eviction pass during the overwriting `put` to reach it). -/
def roundTripOldEntry : CacheEntry :=
  CacheEntry.mk "research:suburb=X" "research_research:suburb=X.json" 0 604800
    "research" [("suburb", "X")] 1000 0

/-- Pre-state containing the old same-key entry and its data file. -/
def roundTripState : CacheState :=
  CacheState.mk [("research_research:suburb=X.json", Json.str "old")]
    (IndexFile.ok [("research:suburb=X", roundTripOldEntry)])
    (IndexFile.ok [("research:suburb=X", roundTripOldEntry)])

/-- Pre-state with no prior entry under the key. -/
def roundTripEmptyState : CacheState :=
  CacheState.mk [] (IndexFile.ok []) (IndexFile.ok [])

/-- C3 (claim fails on the code): with an existing entry under the same key
and a byte budget the overwrite makes the eviction pass exceed, `get`
immediately after `put` returns absent — `_enforce_size_limit` runs after the
new data file has been written but while the index still holds the old entry
with the *same* file name, so evicting the old entry unlinks the data file
that `put` just wrote, and the subsequent `get` finds the entry but no file.
From the empty pre-state the identical `put`/`get` pair round-trips the data,
isolating the divergence to the eviction pass. -/
theorem cache_put_get_roundtrip_eviction_bug :
    (cacheGet (fun s => s) roundTripCfg 1 "research" [("suburb", "X")]
        (cachePut (fun s => s) roundTripCfg 1000 1 "research" (Json.str "new")
          [("suburb", "X")] roundTripState)).2 = none
    ∧ (cacheGet (fun s => s) roundTripCfg 1 "research" [("suburb", "X")]
        (cachePut (fun s => s) roundTripCfg 1000 1 "research" (Json.str "new")
          [("suburb", "X")] roundTripEmptyState)).2 = some (Json.str "new") := by
  constructor
  · rfl
  · rfl

theorem delVal_eq_filter {β : Type} (m : List (String × β)) (k : String) :
    AList.delVal m k = m.filter (fun p => !(decide (p.1 = k))) := by
  induction m with
  | nil => rfl
  | cons p t ih =>
    obtain ⟨k₀, v⟩ := p
    by_cases h : k₀ = k <;> simp [AList.delVal, h, List.filter_cons, ih]

theorem delVal_perm_of_head {β : Type} (index rest : List (String × β))
    (k₀ : String) (e : β) (hperm : index.Perm ((k₀, e) :: rest))
    (hnot : k₀ ∉ rest.map Prod.fst) :
    (AList.delVal index k₀).Perm rest := by
  have h₂ : ((k₀, e) :: rest).filter (fun p => !(decide (p.1 = k₀))) = rest := by
    rw [List.filter_cons]
    simp only [decide_True, Bool.not_true, Bool.false_eq_true, if_false]
    apply List.filter_eq_self.mpr
    intro p hp
    have hne : p.1 ≠ k₀ := fun hc => hnot (hc ▸ List.mem_map.mpr ⟨p, hp, rfl⟩)
    simp [hne]
  rw [delVal_eq_filter]
  exact h₂ ▸ hperm.filter (fun p => !(decide (p.1 = k₀)))

theorem sumSizes_cons (k₀ : String) (e : CacheEntry)
    (t : List (String × CacheEntry)) :
    sumSizes ((k₀, e) :: t) = e.size_bytes + sumSizes t := by
  simp [sumSizes]

theorem evictLoop_cons (maxS nn : Int) (k₀ : String) (e : CacheEntry)
    (rest : List (String × CacheEntry)) (files : List (String × Json))
    (index : List (String × CacheEntry)) (total : Int) :
    evictLoop maxS nn ((k₀, e) :: rest) files index total
      = if total - e.size_bytes + nn ≤ maxS
        then (AList.delVal files e.filepath, AList.delVal index k₀)
        else evictLoop maxS nn rest (AList.delVal files e.filepath)
          (AList.delVal index k₀) (total - e.size_bytes) := rfl

theorem evictLoop_spec (maxS nn : Int) (l : List (String × CacheEntry)) :
    ∀ (files : List (String × Json)) (index : List (String × CacheEntry)),
      index.Perm l → (l.map Prod.fst).Nodup →
      ¬(sumSizes l + nn ≤ maxS) →
      ∃ k, (0 < k ∨ l = []) ∧ k ≤ l.length
        ∧ (evictLoop maxS nn l files index (sumSizes l)).2.Perm (l.drop k)
        ∧ (sumSizes (l.drop k) + nn ≤ maxS ∨ k = l.length)
        ∧ (∀ j, j < k → ¬(sumSizes (l.drop j) + nn ≤ maxS))
        ∧ (∀ p ∈ l.take k,
            AList.getVal? (evictLoop maxS nn l files index (sumSizes l)).1
              p.2.filepath = none)
        ∧ (∀ name, (∀ p ∈ l.take k, p.2.filepath ≠ name) →
            AList.getVal? (evictLoop maxS nn l files index (sumSizes l)).1 name
              = AList.getVal? files name) := by
  induction l with
  | nil =>
    intro files index hperm _ _
    exact ⟨0, Or.inr rfl, Nat.le_refl 0, hperm, Or.inr rfl,
      fun j hj => absurd hj (Nat.not_lt_zero j),
      fun p hp => absurd hp (List.not_mem_nil p),
      fun name _ => rfl⟩
  | cons hd rest ih =>
    intro files index hperm hnodup hover
    obtain ⟨k₀, e⟩ := hd
    have hsum : sumSizes ((k₀, e) :: rest) = e.size_bytes + sumSizes rest :=
      sumSizes_cons k₀ e rest
    have hnodup₀ : (k₀ :: rest.map Prod.fst).Nodup := hnodup
    have hnot : k₀ ∉ rest.map Prod.fst := (List.nodup_cons.mp hnodup₀).1
    have hpermdel : (AList.delVal index k₀).Perm rest :=
      delVal_perm_of_head index rest k₀ e hperm hnot
    rw [evictLoop_cons]
    by_cases hfit : sumSizes ((k₀, e) :: rest) - e.size_bytes + nn ≤ maxS
    · rw [if_pos hfit]
      refine ⟨1, Or.inl Nat.one_pos, Nat.succ_le_succ (Nat.zero_le _),
        by simpa using hpermdel, ?_, ?_, ?_, ?_⟩
      · left
        simp only [List.drop_succ_cons, List.drop_zero]
        omega
      · intro j hj
        interval_cases j
        simpa using hover
      · intro p hp
        simp only [List.take_succ_cons, List.take_zero] at hp
        rcases List.mem_singleton.mp hp with rfl
        exact AList.getVal?_delVal_self files _
      · intro name hname
        have hne : name ≠ e.filepath := by
          have := hname (k₀, e) (by simp)
          exact fun hc => this hc.symm
        exact AList.getVal?_delVal_other files e.filepath name hne
    · rw [if_neg hfit]
      have hover₁ : ¬(sumSizes rest + nn ≤ maxS) := by omega
      have hnodup₁ : (rest.map Prod.fst).Nodup := (List.nodup_cons.mp hnodup₀).2
      have htot : sumSizes ((k₀, e) :: rest) - e.size_bytes = sumSizes rest := by
        omega
      rw [htot]
      obtain ⟨k₁, hk₁pos, hk₁le, hperm₁, hfit₁, hmin₁, hdel₁, hframe₁⟩ :=
        ih (AList.delVal files e.filepath) (AList.delVal index k₀)
          hpermdel hnodup₁ hover₁
      refine ⟨k₁ + 1, Or.inl (Nat.succ_pos k₁),
        Nat.succ_le_succ hk₁le, by simpa using hperm₁, ?_, ?_, ?_, ?_⟩
      · rcases hfit₁ with h | h
        · left; simpa using h
        · right; simpa using congrArg Nat.succ h
      · intro j hj
        cases j with
        | zero => simpa using hover
        | succ j₁ =>
          have : j₁ < k₁ := Nat.lt_of_succ_lt_succ hj
          simpa using hmin₁ j₁ this
      · intro p hp
        simp only [List.take_succ_cons] at hp
        rcases List.mem_cons.mp hp with rfl | hp₁
        · by_cases hin : ∀ q ∈ rest.take k₁, q.2.filepath ≠ e.filepath
          · rw [hframe₁ e.filepath hin]
            exact AList.getVal?_delVal_self files _
          · push_neg at hin
            obtain ⟨q, hq, hqeq⟩ := hin
            have := hdel₁ q hq
            rw [hqeq] at this
            exact this
        · exact hdel₁ p hp₁
      · intro name hname
        simp only [List.take_succ_cons] at hname
        have hhead : name ≠ e.filepath := by
          have := hname (k₀, e) (List.mem_cons_self _ _)
          exact fun hc => this hc.symm
        have htail : ∀ q ∈ rest.take k₁, q.2.filepath ≠ name :=
          fun q hq => hname q (List.mem_cons_of_mem _ hq)
        rw [hframe₁ name htail]
        exact AList.getVal?_delVal_other files e.filepath name hhead

/-- C5: whenever a put would make the current total cached size plus the
incoming entry's size exceed the configured byte budget, `enforceSizeLimit`
deletes existing entries (data file plus index entry) in ascending
`lastAccessed` order — the surviving entries are the remainder of the
LRU-ascending sort after a prefix of evictions — stopping as soon as the
total plus the incoming size fits within the budget (for every shorter
eviction prefix the sum still exceeds the budget, and the loop only runs to
the end of the index when even that does not fit), then persists the updated
index once (primary and backup both hold exactly the surviving entries); a
configured budget ≤ 0 disables enforcement entirely, and a total that
already fits leaves the state untouched. -/
theorem enforce_size_limit_lru (maxS nn : Int) (files : List (String × Json))
    (backup : IndexFile) (index : List (String × CacheEntry))
    (hnodup : (index.map Prod.fst).Nodup) :
    (maxS ≤ 0 →
      enforceSizeLimit maxS nn (CacheState.mk files (IndexFile.ok index) backup)
        = CacheState.mk files (IndexFile.ok index) backup)
    ∧ (0 < maxS → sumSizes index + nn ≤ maxS →
      enforceSizeLimit maxS nn (CacheState.mk files (IndexFile.ok index) backup)
        = CacheState.mk files (IndexFile.ok index) backup)
    ∧ (0 < maxS → ¬(sumSizes index + nn ≤ maxS) →
      ∃ k kept, (0 < k ∨ index = []) ∧ k ≤ index.length
        ∧ (enforceSizeLimit maxS nn
            (CacheState.mk files (IndexFile.ok index) backup)).primaryIndex
          = IndexFile.ok kept
        ∧ (enforceSizeLimit maxS nn
            (CacheState.mk files (IndexFile.ok index) backup)).backupIndex
          = IndexFile.ok kept
        ∧ kept.Perm ((List.insertionSort lruLE index).drop k)
        ∧ (sumSizes ((List.insertionSort lruLE index).drop k) + nn ≤ maxS
            ∨ k = index.length)
        ∧ (∀ j, j < k →
            ¬(sumSizes ((List.insertionSort lruLE index).drop j) + nn ≤ maxS))
        ∧ (∀ p ∈ (List.insertionSort lruLE index).take k,
            AList.getVal? (enforceSizeLimit maxS nn
              (CacheState.mk files (IndexFile.ok index) backup)).files
              p.2.filepath = none)
        ∧ (∀ name,
            (∀ p ∈ (List.insertionSort lruLE index).take k,
              p.2.filepath ≠ name) →
            AList.getVal? (enforceSizeLimit maxS nn
              (CacheState.mk files (IndexFile.ok index) backup)).files name
              = AList.getVal? files name)) := by
  refine ⟨?_, ?_, ?_⟩
  · intro h
    simp [enforceSizeLimit, h]
  · intro h₁ h₂
    have hns : ¬(maxS ≤ 0) := by omega
    simp [enforceSizeLimit, hns, loadIndex, h₂]
  · intro h₁ h₂
    have hns : ¬(maxS ≤ 0) := by omega
    have hperm : index.Perm (List.insertionSort lruLE index) :=
      (List.perm_insertionSort lruLE index).symm
    have hss : sumSizes (List.insertionSort lruLE index) = sumSizes index := by
      unfold sumSizes
      exact ((List.perm_insertionSort lruLE index).map
        (fun p => p.2.size_bytes)).sum_eq
    have hlen : (List.insertionSort lruLE index).length = index.length :=
      (List.perm_insertionSort lruLE index).length_eq
    have hnodupS : ((List.insertionSort lruLE index).map Prod.fst).Nodup :=
      (((List.perm_insertionSort lruLE index).map Prod.fst).nodup_iff).mpr
        hnodup
    have hoverS : ¬(sumSizes (List.insertionSort lruLE index) + nn ≤ maxS) := by
      rw [hss]; exact h₂
    obtain ⟨k, hkpos, hkle, hpermk, hfitk, hmink, hdelk, hframek⟩ :=
      evictLoop_spec maxS nn (List.insertionSort lruLE index) files index
        hperm hnodupS hoverS
    have hstate : enforceSizeLimit maxS nn
        (CacheState.mk files (IndexFile.ok index) backup)
        = CacheState.mk
            (evictLoop maxS nn (List.insertionSort lruLE index) files index
              (sumSizes index)).1
            (IndexFile.ok (evictLoop maxS nn (List.insertionSort lruLE index)
              files index (sumSizes index)).2)
            (IndexFile.ok (evictLoop maxS nn (List.insertionSort lruLE index)
              files index (sumSizes index)).2) := by
      simp [enforceSizeLimit, hns, loadIndex, h₂, saveIndex]
    rw [← hss] at hstate
    refine ⟨k,
      (evictLoop maxS nn (List.insertionSort lruLE index) files index
        (sumSizes (List.insertionSort lruLE index))).2, ?_, ?_, ?_, ?_,
      hpermk, ?_, hmink, ?_, ?_⟩
    · rcases hkpos with h | h
      · exact Or.inl h
      · exact Or.inr ((h ▸ hperm).eq_nil)
    · exact hlen ▸ hkle
    · rw [hstate]
    · rw [hstate]
    · rcases hfitk with h | h
      · exact Or.inl h
      · exact Or.inr (hlen ▸ h)
    · intro p hp
      rw [hstate]
      exact hdelk p hp
    · intro name hname
      rw [hstate]
      exact hframek name hname

/-- Concrete 100-byte cache entry for the LRU-eviction witness. -/
def lruEntryW (n : Nat) : CacheEntry :=
  CacheEntry.mk (s!"h{n}") (s!"research_h{n}.json") 0 604800 "research" []
    100 (10 * (n : Int))

/-- Concrete index of three entries (listed out of `last_accessed` order). -/
def lruIdxW : List (String × CacheEntry) :=
  [("h2", lruEntryW 2), ("h1", lruEntryW 1), ("h3", lruEntryW 3)]

/-- Concrete data files of the LRU-eviction witness. -/
def lruFilesW : List (String × Json) :=
  [("research_h1.json", Json.num 1), ("research_h2.json", Json.num 2),
   ("research_h3.json", Json.num 3)]

/-- Witness for C5: three 100-byte entries against a 250-byte budget and an
incoming 100-byte entry — the least-recently-accessed entries are evicted
first until the total fits. -/
theorem enforce_size_limit_lru_witness :
    ∃ k kept, (0 < k ∨ lruIdxW = []) ∧ k ≤ lruIdxW.length
      ∧ (enforceSizeLimit 250 100
          (CacheState.mk lruFilesW (IndexFile.ok lruIdxW)
            IndexFile.missing)).primaryIndex = IndexFile.ok kept
      ∧ (enforceSizeLimit 250 100
          (CacheState.mk lruFilesW (IndexFile.ok lruIdxW)
            IndexFile.missing)).backupIndex = IndexFile.ok kept
      ∧ kept.Perm ((List.insertionSort lruLE lruIdxW).drop k)
      ∧ (sumSizes ((List.insertionSort lruLE lruIdxW).drop k) + 100 ≤ 250
          ∨ k = lruIdxW.length)
      ∧ (∀ j, j < k →
          ¬(sumSizes ((List.insertionSort lruLE lruIdxW).drop j) + 100 ≤ 250))
      ∧ (∀ p ∈ (List.insertionSort lruLE lruIdxW).take k,
          AList.getVal? (enforceSizeLimit 250 100
            (CacheState.mk lruFilesW (IndexFile.ok lruIdxW)
              IndexFile.missing)).files p.2.filepath = none)
      ∧ (∀ name,
          (∀ p ∈ (List.insertionSort lruLE lruIdxW).take k,
            p.2.filepath ≠ name) →
          AList.getVal? (enforceSizeLimit 250 100
            (CacheState.mk lruFilesW (IndexFile.ok lruIdxW)
              IndexFile.missing)).files name
            = AList.getVal? lruFilesW name) := by
  have h := enforce_size_limit_lru 250 100 lruFilesW IndexFile.missing lruIdxW
    (by decide)
  exact h.2.2 (by decide) (by decide)

/-!
## CheckpointManager (`src/research/checkpoints.py`)

A run's checkpoint directory holds checkpoint files (JSON envelopes
`{run_id, phase, sequence, timestamp, state}`) and sibling `.sha256` digest
files.  A checkpoint file maps to `some record` when it parses and `none`
when it is present but unparseable.  `digestFn` abstracts
`sha256(json.dumps(checkpoint_data, indent=2))` — the digest recomputed over
the record's serialized bytes — as a deterministic function of the parsed
record; the claims hold for every such function.
-/

/-- Parsed checkpoint JSON envelope. -/
structure CheckpointRecord where
  run_id : String
  phase : String
  sequence : Int
  timestamp : Int
  state : Json
deriving Repr

/-- One run's checkpoint directory. -/
structure CheckpointDir where
  checkpoints : List (String × Option CheckpointRecord)
  digests : List (String × String)
deriving Repr

/-- `CheckpointManager.__init__` fields used when loading. -/
structure CheckpointManager where
  run_id : String
  max_checkpoints : Nat
deriving Repr, DecidableEq

/-- The file names present in the run's checkpoint directory. -/
def checkpointFileNames (dir : CheckpointDir) : List String :=
  dir.checkpoints.map Prod.fst

/-- Lexicographic code-point comparison of two character lists (Python's
string `<`), kernel reducible. -/
def listLtChar : List Char → List Char → Bool
  | [], [] => false
  | [], _ :: _ => true
  | _ :: _, [] => false
  | a :: as, b :: bs =>
    if a < b then true else if b < a then false else listLtChar as bs

/-- Sort used on `research_*.json` names: `sort(reverse=True)`, i.e.
descending string order. -/
def nameGE (a b : String) : Prop := listLtChar a.data b.data = false

instance : DecidableRel nameGE := fun x y =>
  inferInstanceAs (Decidable (listLtChar x.data y.data = false))

/--
`CheckpointManager._get_checkpoint_candidates` (lines 164–195): for
`discovery`, `[discovery.json]` if it exists; for `research`, all
`research_*.json` names sorted descending (latest first) followed by
`discovery.json` as final fallback; anything else, no candidates.
-/
def getCheckpointCandidates (dir : CheckpointDir) (phase : String) :
    List String :=
  if phase = "discovery" then
    if (checkpointFileNames dir).contains "discovery.json" then
      ["discovery.json"]
    else []
  else if phase = "research" then
    let researchFiles := (checkpointFileNames dir).filter
      (fun n => strStartsWith n "research_" && strEndsWith n ".json")
    List.insertionSort nameGE researchFiles
      ++ (if (checkpointFileNames dir).contains "discovery.json" then
            ["discovery.json"]
          else [])
  else []

/-- Sibling digest file name: `f"{checkpoint_name}.json.sha256"` with
`checkpoint_name = path.stem`; for a candidate named `X.json` this is
`X.json.sha256`. -/
def checksumNameOf (name : String) : String :=
  name ++ ".sha256"

/-- Python `str.strip()` on the digest file's text, computed on the
underlying character list (kernel reducible, unlike `String.trim`). -/
def strStrip (s : String) : String :=
  String.mk (((s.data.dropWhile Char.isWhitespace).reverse.dropWhile
    Char.isWhitespace).reverse)

/--
The candidate loop of `CheckpointManager.load_latest_checkpoint` (lines
99–149): for each candidate, skip it if the sibling digest file is missing,
if the checkpoint fails to parse, if the recomputed digest differs from the
stored digest text (stripped), or if the record's `run_id` is not the current
run's; return the first surviving candidate's `state`.
-/
def loadCandidates (digestFn : CheckpointRecord → String) (runId : String)
    (dir : CheckpointDir) : List String → Option Json
  | [] => none
  | name :: rest =>
    match AList.getVal? dir.digests (checksumNameOf name) with
    | none => loadCandidates digestFn runId dir rest
    | some raw =>
      match AList.getVal? dir.checkpoints name with
      | none => loadCandidates digestFn runId dir rest
      | some none => loadCandidates digestFn runId dir rest
      | some (some r) =>
        if digestFn r ≠ strStrip raw then loadCandidates digestFn runId dir rest
        else if r.run_id ≠ runId then loadCandidates digestFn runId dir rest
        else some r.state

/-- `CheckpointManager.load_latest_checkpoint` (lines 86–149). -/
def loadLatestCheckpoint (digestFn : CheckpointRecord → String)
    (mgr : CheckpointManager) (dir : CheckpointDir) (phase : String) :
    Option Json :=
  loadCandidates digestFn mgr.run_id dir (getCheckpointCandidates dir phase)

/-- The claim's acceptance predicate for one candidate: it has a sibling
digest file, parses, its recomputed digest equals the stored digest, and its
`run_id` matches the current run. -/
def passesChecks (digestFn : CheckpointRecord → String) (runId : String)
    (dir : CheckpointDir) (name : String) : Bool :=
  match AList.getVal? dir.digests (checksumNameOf name),
      AList.getVal? dir.checkpoints name with
  | some raw, some (some r) => digestFn r == strStrip raw && r.run_id == runId
  | _, _ => false

/-- The state carried by a (parseable) candidate. -/
def candidateState (dir : CheckpointDir) (name : String) : Option Json :=
  match AList.getVal? dir.checkpoints name with
  | some (some r) => some r.state
  | _ => none

/-- C4: `loadLatestCheckpoint(phase)` enumerates candidate checkpoint files
latest-first and returns the state of the first candidate that has a sibling
digest file, whose recomputed digest over its serialized bytes equals that
digest, and whose `run_id` matches the current run; every candidate failing
any of these checks (missing digest, digest mismatch, run-id mismatch,
unparseable JSON) is silently skipped in favour of the next-older candidate,
and absent is returned only when no candidate passes. -/
theorem loadLatestCheckpoint_first_valid (digestFn : CheckpointRecord → String)
    (mgr : CheckpointManager) (dir : CheckpointDir) (phase : String) :
    loadLatestCheckpoint digestFn mgr dir phase
      = ((getCheckpointCandidates dir phase).find?
          (passesChecks digestFn mgr.run_id dir)).bind
        (candidateState dir) := by
  unfold loadLatestCheckpoint
  generalize getCheckpointCandidates dir phase = names
  induction names with
  | nil => rfl
  | cons name rest ih =>
    cases hdig : AList.getVal? dir.digests (checksumNameOf name) with
    | none =>
      have hpass : passesChecks digestFn mgr.run_id dir name = false := by
        simp [passesChecks, hdig]
      simp only [loadCandidates, hdig, List.find?_cons, hpass]
      exact ih
    | some raw =>
      cases hcp : AList.getVal? dir.checkpoints name with
      | none =>
        have hpass : passesChecks digestFn mgr.run_id dir name = false := by
          simp [passesChecks, hdig, hcp]
        simp only [loadCandidates, hdig, hcp, List.find?_cons, hpass]
        exact ih
      | some o =>
        cases o with
        | none =>
          have hpass : passesChecks digestFn mgr.run_id dir name = false := by
            simp [passesChecks, hdig, hcp]
          simp only [loadCandidates, hdig, hcp, List.find?_cons, hpass]
          exact ih
        | some r =>
          by_cases h₁ : digestFn r = strStrip raw
          · by_cases h₂ : r.run_id = mgr.run_id
            · have hpass : passesChecks digestFn mgr.run_id dir name = true := by
                simp [passesChecks, hdig, hcp, h₁, h₂]
              simp [loadCandidates, hdig, hcp, h₁, h₂, List.find?_cons, hpass,
                candidateState]
            · have hpass : passesChecks digestFn mgr.run_id dir name = false := by
                simp [passesChecks, hdig, hcp, h₁, h₂]
              simp only [loadCandidates, hdig, hcp, List.find?_cons, hpass,
                if_neg, ite_not]
              rw [if_pos h₁]
              rw [if_neg ?_]
              · exact ih
              · simpa using h₂
          · have hpass : passesChecks digestFn mgr.run_id dir name = false := by
              simp [passesChecks, hdig, hcp, h₁]
            simp only [loadCandidates, hdig, hcp, List.find?_cons, hpass]
            rw [if_pos ?_]
            · exact ih
            · simpa using h₁

/-- Sample digest function for the concrete rollback scenario below. -/
def sampleDigestFn : CheckpointRecord → String :=
  fun r => "digest_of_" ++ r.run_id ++ r.phase ++ toString r.sequence

/-- The spec's rollback scenario: `research_0001.json` valid,
`research_0002.json` with a mismatching digest. -/
def sampleCheckpointDir : CheckpointDir :=
  CheckpointDir.mk
    [("discovery.json",
       some (CheckpointRecord.mk "run1" "discovery" 0 0 (Json.str "disc"))),
     ("research_0001.json",
       some (CheckpointRecord.mk "run1" "research" 1 5 (Json.str "st1"))),
     ("research_0002.json",
       some (CheckpointRecord.mk "run1" "research" 2 9 (Json.str "st2")))]
    [("discovery.json.sha256", "digest_of_run1discovery0"),
     ("research_0001.json.sha256", "digest_of_run1research1"),
     ("research_0002.json.sha256", "TAMPERED")]

/-- Concrete checkpoint rollback: the latest research checkpoint has a digest
mismatch, so loading returns the state of the next-older valid one. -/
theorem loadLatestCheckpoint_rollback_example :
    loadLatestCheckpoint sampleDigestFn (CheckpointManager.mk "run1" 3)
      sampleCheckpointDir "research" = some (Json.str "st1") := rfl
